import Mathlib

/-!
Verification development for the ResumeTailor backend (src/Backend/main.py).

The Python source is shallowly embedded below: the in-memory registries
become explicit state records, the background worker becomes a pure
state-transition function parameterised by oracles for the external
collaborators (the LLM tailoring call and the PDF renderer), and the
filesystem of tailored artifacts becomes an association list.
-/

namespace RT

/-- The four lifecycle states used both for extraction records and for
tailoring batches and subjobs ("pending", "processing", "completed",
"failed" in the Python source). -/
inductive JobState
  | pending
  | processing
  | completed
  | failed
deriving DecidableEq, Repr

/-- Extracted resume data: the structured dictionary produced by the
parsing collaborator, modelled as an association list. -/
abbrev ResumeData := List (String × String)

/-- Python truthiness of the optional extracted-data dictionary:
None and the empty dict are falsy. -/
def dataTruthy : Option ResumeData → Bool
  | none => false
  | some d => !d.isEmpty

/-- Error taxonomy of the HTTP endpoints (404 and the distinct 400
detail messages of main.py). -/
inductive ApiError
  | NotFound
  | NotExtracted
  | ExtractionIncomplete
  | NoData
  | InvalidState
  | RenderFailed
deriving DecidableEq, Repr

/-! ## Sanitisation (main.py lines 517-518)

safe_company = "".join(c for c in s if c.isalnum() or c in (' ', '-', '_')).rstrip()
-/
/-- The filter of the sanitiser: `c.isalnum() or c in (' ', '-', '_')`. -/
def keepChar (c : Char) : Bool :=
  c.isAlphanum || decide (c = ' ' ∨ c = '-' ∨ c = '_')

/-- Python's default str.rstrip() whitespace set (ASCII fragment):
space, tab, newline, carriage return, vertical tab, form feed. -/
def pyIsSpace (c : Char) : Bool :=
  decide (c = ' ' ∨ c = '\t' ∨ c = '\n' ∨ c = '\r' ∨ c = Char.ofNat 11 ∨ c = Char.ofNat 12)

/-- str.rstrip(): remove the trailing run of whitespace characters. -/
def rstrip (l : List Char) : List Char :=
  (l.reverse.dropWhile pyIsSpace).reverse

/-- The inline sanitiser of main.py: keep alphanumerics, space, hyphen
and underscore, then strip trailing whitespace. -/
def sanitize (s : String) : String :=
  ⟨rstrip (s.data.filter keepChar)⟩

/-- The character class as the spec words it: alphanumeric, space,
hyphen, or underscore. -/
def keepCharSpec (c : Char) : Bool :=
  c.isAlphanum || decide (c = ' ' ∨ c = '-' ∨ c = '_')

/-- Remove the trailing elements satisfying p, by structural recursion
on the list (a direct reading of "trims trailing whitespace"). -/
def dropTrailingP (p : Char → Bool) : List Char → List Char
  | [] => []
  | c :: cs =>
    match dropTrailingP p cs with
    | [] => if p c then [] else [c]
    | r :: rest => c :: r :: rest

/-- Sanitisation as the spec describes it: keep exactly the characters
that are alphanumeric, space, hyphen, or underscore, then trim trailing
whitespace. -/
def sanitizeSpec (s : String) : String :=
  ⟨dropTrailingP Char.isWhitespace (s.data.filter keepCharSpec)⟩

/-! ## Decimal rendering of the subjob index (Python str(i)) -/
/-- Fuel-driven decimal digits of a natural number, most significant
digit first; the fuel makes the definition structurally recursive. -/
def toDecimalAux : Nat → Nat → List Char
  | 0, _ => []
  | fuel + 1, n =>
    if n < 10 then [Char.ofNat (48 + n)]
    else toDecimalAux fuel (n / 10) ++ [Char.ofNat (48 + n % 10)]

/-- Decimal rendering of a natural number, as Python str(i). -/
def toDecimal (n : Nat) : List Char := toDecimalAux (n + 1) n

/-- Value of a digit string, used to invert toDecimal. -/
def ofDecimal (l : List Char) : Nat :=
  l.foldl (fun a c => 10 * a + (c.toNat - 48)) 0

/-! ## Artifact filenames (main.py lines 517-521) -/
/-- base_filename = f"{resume_id}_{safe_company}_{safe_title}_{i}" with
safe_company and safe_title the sanitised company and title. -/
def base_filename (rid company title : String) (i : Nat) : String :=
  rid ++ "_" ++ sanitize company ++ "_" ++ sanitize title ++ "_" ++ ⟨toDecimal i⟩

/-! ## Data model: registries, batches, subjobs -/
/-- A job-description context as submitted to /api/tailor; only the
fields the tracker itself reads are modelled (the remaining fields are
forwarded verbatim to the tailoring collaborator). An absent key is
none; .getD mirrors Python dict.get with a default. -/
structure JobDesc where
  title : Option String
  company : Option String
deriving DecidableEq, Repr

/-- Download links of a completed subjob (main.py lines 542-545). -/
structure DownloadLinks where
  json : String
  pdf : String
deriving DecidableEq, Repr

/-- One tracked subjob of a tailoring batch (main.py lines 283-292). -/
structure SubJob where
  job_index : Nat
  job_title : String
  company : String
  status : JobState
  progress_message : Option String
  error_message : Option String
  tailored_resume : Option ResumeData
  download_links : Option DownloadLinks
deriving DecidableEq, Repr

/-- A tailoring batch (main.py lines 294-301; created_at omitted). -/
structure TailoringBatch where
  resume_id : String
  job_descriptions : List JobDesc
  status : JobState
  individual_jobs : List SubJob
  error_message : Option String
deriving DecidableEq, Repr

/-- Uploaded-resume metadata (main.py lines 176-181; timestamp omitted). -/
structure ResumeRecord where
  filename : String
  file_path : String
  status : String
deriving DecidableEq, Repr

/-- Extraction status record for one resume (main.py lines 184-188). -/
structure ExtractionStatus where
  status : JobState
  extracted_data : Option ResumeData
  error_message : Option String
deriving DecidableEq, Repr

/-- The three process-wide registries of main.py (lines 48-50). -/
structure ServerState where
  resume_storage : String → Option ResumeRecord
  extraction_status : String → Option ExtractionStatus
  tailoring_jobs : String → Option TailoringBatch

/-- Point update of a string-keyed registry. -/
def mapUpdate {β : Type} (m : String → Option β) (k : String) (v : β) :
    String → Option β :=
  fun x => if x = k then some v else m x

/-- The server state with all three registries empty. -/
def emptyServerState : ServerState :=
  { resume_storage := fun _ => none
    extraction_status := fun _ => none
    tailoring_jobs := fun _ => none }

/-! ## Upload, extraction and manual update (main.py lines 149-257, 419-456) -/
/-- POST /api/upload (storage effects only; rid stands for the freshly
generated uuid). Stores the resume record and a pending extraction
status. -/
def upload_resume (st : ServerState) (rid filename : String) : ServerState :=
  { st with
    resume_storage := mapUpdate st.resume_storage rid
      { filename := filename
        file_path := "uploads/" ++ rid ++ "_" ++ filename
        status := "uploaded" }
    extraction_status := mapUpdate st.extraction_status rid
      { status := JobState.pending, extracted_data := none, error_message := none } }

/-- POST /api/extract/{resume_id} (main.py lines 199-225): 404 if the
resume is unknown; otherwise insert a fresh pending record when none
exists and set the status field to processing, leaving the other
fields as they are. -/
def extract_resume_data (st : ServerState) (rid : String) :
    ServerState × Except ApiError Unit :=
  match st.resume_storage rid with
  | none => (st, Except.error ApiError.NotFound)
  | some _ =>
    let es0 := (st.extraction_status rid).getD
      { status := JobState.pending, extracted_data := none, error_message := none }
    ({ st with extraction_status :=
        mapUpdate st.extraction_status rid { es0 with status := JobState.processing } },
     Except.ok ())

/-- Result of the external structured-extraction collaborator call in
perform_extraction: an exception, or a returned optional dictionary. -/
inductive ParseOutcome
  | raises (msg : String)
  | value (d : Option ResumeData)

/-- The single terminal record perform_extraction writes (main.py
lines 419-456), as a function of the collaborator outcome. -/
def extractionWrite (outcome : ParseOutcome) : ExtractionStatus :=
  match outcome with
  | ParseOutcome.raises msg =>
    { status := JobState.failed, extracted_data := none, error_message := some msg }
  | ParseOutcome.value none =>
    { status := JobState.failed, extracted_data := none
      error_message := some "Failed to extract resume data" }
  | ParseOutcome.value (some d) =>
    if d.isEmpty then
      { status := JobState.failed, extracted_data := none
        error_message := some "Failed to extract resume data" }
    else if (d.lookup "error") = some "api_key_invalid" then
      { status := JobState.failed, extracted_data := none
        error_message := some ("API Key Error: "
          ++ ((d.lookup "error_message").getD "Invalid or missing API key")) }
    else
      { status := JobState.completed, extracted_data := some d, error_message := none }

/-- The background extraction run: exactly one terminal write to the
extraction registry. -/
def perform_extraction (st : ServerState) (rid : String) (outcome : ParseOutcome) :
    ServerState :=
  { st with extraction_status :=
      mapUpdate st.extraction_status rid (extractionWrite outcome) }

/-- PUT /api/resume/{resume_id} (main.py lines 244-257): 404 when there
is no extraction entry, 400 unless extraction completed, otherwise
replace the extracted data in place. -/
def update_resume_data (st : ServerState) (rid : String) (d : ResumeData) :
    ServerState × Except ApiError Unit :=
  match st.extraction_status rid with
  | none => (st, Except.error ApiError.NotFound)
  | some es =>
    if es.status ≠ JobState.completed then (st, Except.error ApiError.InvalidState)
    else
      ({ st with extraction_status :=
          mapUpdate st.extraction_status rid { es with extracted_data := some d } },
       Except.ok ())

/-- The invariant claimed by the spec: within every extraction record,
the extracted data is non-null exactly when the state is completed. -/
def extractionInvariant (st : ServerState) : Prop :=
  ∀ rid es, st.extraction_status rid = some es →
    (es.extracted_data.isSome = true ↔ es.status = JobState.completed)

/-! ## Tailoring submission (main.py lines 259-310) -/
/-- The initial subjob record built for position i (main.py 283-292). -/
def pendingJob (i : Nat) (jd : JobDesc) : SubJob :=
  { job_index := i
    job_title := jd.title.getD "Unknown Title"
    company := jd.company.getD "Unknown Company"
    status := JobState.pending
    progress_message := none
    error_message := none
    tailored_resume := none
    download_links := none }

/-- individual_jobs built by enumerate(request.job_descriptions). -/
def mkIndividualJobsFrom : Nat → List JobDesc → List SubJob
  | _, [] => []
  | i, jd :: rest => pendingJob i jd :: mkIndividualJobsFrom (i + 1) rest

/-- The subjob list of a freshly submitted batch. -/
def mkIndividualJobs (jds : List JobDesc) : List SubJob :=
  mkIndividualJobsFrom 0 jds

/-- POST /api/tailor (main.py lines 259-310): the four precondition
checks in source order, then atomic creation of the batch under the
fresh task id (tid stands for the generated uuid). Each failure raises
before any registry write, so the state component is returned
untouched on error. -/
def tailor_resume (st : ServerState) (rid : String) (jds : List JobDesc)
    (tid : String) : ServerState × Except ApiError String :=
  match st.resume_storage rid with
  | none => (st, Except.error ApiError.NotFound)
  | some _ =>
    match st.extraction_status rid with
    | none => (st, Except.error ApiError.NotExtracted)
    | some es =>
      if es.status ≠ JobState.completed then
        (st, Except.error ApiError.ExtractionIncomplete)
      else if !dataTruthy es.extracted_data then
        (st, Except.error ApiError.NoData)
      else
        let batch : TailoringBatch :=
          { resume_id := rid
            job_descriptions := jds
            status := JobState.pending
            individual_jobs := mkIndividualJobs jds
            error_message := none }
        ({ st with tailoring_jobs := mapUpdate st.tailoring_jobs tid batch },
         Except.ok tid)

/-! ## The artifact store (tailored_resumes directory) -/
/-- The artifact store: filename keyed contents, most recent write
first. For a json artifact the value is the stored structured result;
for a pdf artifact, the structured result it was rendered from. -/
abbrev FS := List (String × ResumeData)

/-- File lookup (newest write wins, as on a filesystem). -/
def fsGet : FS → String → Option ResumeData
  | [], _ => none
  | (k, v) :: rest, key => if key = k then some v else fsGet rest key

/-! ## The tailoring worker (main.py lines 458-601) -/
/-- Outcome of the tailoring collaborator call for one subjob: it can
raise, return None, or return a non-empty structured result. -/
inductive TailorOutcome
  | raises (msg : String)
  | empty
  | success (c : ResumeData)

/-- Oracles for the two external collaborators used inside the worker
loop: the LLM tailoring call and the PDF renderer (which returns a
bool and never raises). -/
structure WorkerEnv where
  tailor : Nat → TailorOutcome
  pdfOk : Nat → Bool

/-- json_filename = f"{base_filename}.json" with the defaults of
main.py lines 517-519 applied to the raw job description. -/
def jsonFilename (rid : String) (jd : JobDesc) (i : Nat) : String :=
  base_filename rid (jd.company.getD "Unknown") (jd.title.getD "Unknown") i ++ ".json"

/-- pdf_filename = f"{base_filename}.pdf". -/
def pdfFilename (rid : String) (jd : JobDesc) (i : Nat) : String :=
  base_filename rid (jd.company.getD "Unknown") (jd.title.getD "Unknown") i ++ ".pdf"

/-- The download links of a successful subjob (main.py lines 542-545):
json always names the json artifact; pdf names the pdf artifact when
rendering succeeded and the on-demand conversion endpoint otherwise. -/
def mkLinks (pdfGenerated : Bool) (rid : String) (jd : JobDesc) (i : Nat) :
    DownloadLinks :=
  { json := "/api/download/" ++ jsonFilename rid jd i,
    pdf := if pdfGenerated then "/api/download/" ++ pdfFilename rid jd i
           else "/api/download/" ++ jsonFilename rid jd i ++ "/pdf" }

/-- In-place update of the list element at one position (the Python
individual_jobs[i] mutations); out-of-range positions leave the list
unchanged. -/
def modifyAt {α : Type} (f : α → α) : Nat → List α → List α
  | _, [] => []
  | 0, x :: xs => f x :: xs
  | n + 1, x :: xs => x :: modifyAt f n xs

/-- Update subjob i of a batch in place. -/
def setJob (i : Nat) (f : SubJob → SubJob) (b : TailoringBatch) : TailoringBatch :=
  { b with individual_jobs := modifyAt f i b.individual_jobs }

/-- Processing of one subjob inside the worker loop (main.py lines
474-576): status/progress updates, the tailoring call, artifact
persistence, pdf rendering and link creation on success, failure
capture otherwise. -/
def processSubJob (env : WorkerEnv) (rid : String) (i : Nat) (jd : JobDesc)
    (s : TailoringBatch × FS) : TailoringBatch × FS :=
  let b0 := setJob i (fun j => { j with
    status := JobState.processing,
    progress_message := some "Starting resume tailoring..." }) s.1
  let b1 := setJob i (fun j => { j with
    progress_message := some "Tailoring resume with AI..." }) b0
  match env.tailor i with
  | TailorOutcome.raises msg =>
    (setJob i (fun j => { j with
      status := JobState.failed,
      progress_message := none,
      tailored_resume := none,
      download_links := none,
      error_message := some msg }) b1, s.2)
  | TailorOutcome.empty =>
    (setJob i (fun j => { j with
      status := JobState.failed,
      progress_message := none,
      tailored_resume := none,
      download_links := none,
      error_message := some "Failed to generate tailored content" }) b1, s.2)
  | TailorOutcome.success c =>
    let b2 := setJob i (fun j => { j with
      progress_message := some "Generating filenames..." }) b1
    let fs1 : FS := (jsonFilename rid jd i, c) :: s.2
    let b3 := setJob i (fun j => { j with
      progress_message := some "Generating PDF..." }) b2
    let pdf_generated := env.pdfOk i
    let fs2 : FS := if pdf_generated then (pdfFilename rid jd i, c) :: fs1 else fs1
    (setJob i (fun j => { j with
      status := JobState.completed,
      progress_message := some "Resume tailored successfully!",
      tailored_resume := some c,
      download_links := some (mkLinks pdf_generated rid jd i),
      error_message := none }) b3, fs2)

/-- The net effect of processing subjob i on that subjob's record. -/
def finalUpd (env : WorkerEnv) (rid : String) (i : Nat) (jd : JobDesc)
    (j : SubJob) : SubJob :=
  match env.tailor i with
  | TailorOutcome.raises msg =>
    { j with
      status := JobState.failed,
      progress_message := none,
      tailored_resume := none,
      download_links := none,
      error_message := some msg }
  | TailorOutcome.empty =>
    { j with
      status := JobState.failed,
      progress_message := none,
      tailored_resume := none,
      download_links := none,
      error_message := some "Failed to generate tailored content" }
  | TailorOutcome.success c =>
    { j with
      status := JobState.completed,
      progress_message := some "Resume tailored successfully!",
      tailored_resume := some c,
      download_links := some (mkLinks (env.pdfOk i) rid jd i),
      error_message := none }

/-- The worker loop: for i, job_desc_data in enumerate(job_descriptions),
processed strictly sequentially. -/
def tailorLoop (env : WorkerEnv) (rid : String) :
    Nat → List JobDesc → TailoringBatch × FS → TailoringBatch × FS
  | _, [], s => s
  | i, jd :: rest, s => tailorLoop env rid (i + 1) rest (processSubJob env rid i jd s)

/-- The aggregation after the loop (main.py lines 578-595). -/
def finalizeBatch (b : TailoringBatch) : TailoringBatch :=
  let completed_count := b.individual_jobs.countP fun j => decide (j.status = JobState.completed)
  let failed_count := b.individual_jobs.countP fun j => decide (j.status = JobState.failed)
  let total_count := b.individual_jobs.length
  if 0 < completed_count then
    if completed_count = total_count then { b with status := JobState.completed }
    else
      { b with
        status := JobState.completed,
        error_message := some (toString completed_count ++ " out of "
          ++ toString total_count ++ " jobs completed successfully. "
          ++ toString failed_count ++ " jobs failed.") }
  else
    { b with
      status := JobState.failed,
      error_message := some "All jobs failed to process" }

/-- The full normally-terminating background run perform_tailoring:
mark the batch processing, run the loop over all job descriptions,
then aggregate the overall outcome. -/
def perform_tailoring (env : WorkerEnv) (b : TailoringBatch) (fs : FS) :
    TailoringBatch × FS :=
  let s := tailorLoop env b.resume_id 0 b.job_descriptions
    ({ b with status := JobState.processing }, fs)
  (finalizeBatch s.1, s.2)

/-- GET /api/tailor/{task_id}/status projection (main.py lines 312-349). -/
structure TailorStatusResponse where
  task_id : String
  overall_status : JobState
  total_jobs : Nat
  completed_jobs : Nat
  failed_jobs : Nat
  individual_jobs : List SubJob
  error_message : Option String
deriving DecidableEq, Repr

/-- The status query: a pure projection of the registry (it performs
no write to any registry). -/
def get_tailoring_status (jobs : String → Option TailoringBatch) (tid : String) :
    Except ApiError TailorStatusResponse :=
  match jobs tid with
  | none => Except.error ApiError.NotFound
  | some b =>
    Except.ok
      { task_id := tid,
        overall_status := b.status,
        total_jobs := b.job_descriptions.length,
        completed_jobs := b.individual_jobs.countP fun j => decide (j.status = JobState.completed),
        failed_jobs := b.individual_jobs.countP fun j => decide (j.status = JobState.failed),
        individual_jobs := b.individual_jobs,
        error_message := b.error_message }

/-! ## Download-as-pdf-with-fallback (main.py lines 375-415) -/
/-- Python base_name = file_key.replace('.json', ''): remove every
occurrence of the substring ".json", scanning left to right. -/
def removeJsonOccurrences : List Char → List Char
  | '.' :: 'j' :: 's' :: 'o' :: 'n' :: rest => removeJsonOccurrences rest
  | c :: rest => c :: removeJsonOccurrences rest
  | [] => []

/-- GET /api/download/{file_key}/pdf: serve the rendered artifact if it
exists, otherwise convert the structured artifact on demand (renderOk
is the PDF renderer oracle), persisting the result; 404 when neither
artifact exists, 500 when conversion fails. Returns the updated store
and the served filename. -/
def download_tailored_resume_pdf (renderOk : Bool) (fs : FS) (file_key : String) :
    FS × Except ApiError String :=
  let base_name : String := ⟨removeJsonOccurrences file_key.data⟩
  let pdf_file_key := base_name ++ ".pdf"
  let json_file_key := base_name ++ ".json"
  match fsGet fs pdf_file_key with
  | some _ => (fs, Except.ok pdf_file_key)
  | none =>
    match fsGet fs json_file_key with
    | some d =>
      if renderOk then ((pdf_file_key, d) :: fs, Except.ok pdf_file_key)
      else (fs, Except.error ApiError.RenderFailed)
    | none => (fs, Except.error ApiError.NotFound)

/-- Suffix stripping as the spec describes it: remove one trailing
".pdf" or ".json" when present. Used only to compare the claimed
behaviour with the implemented one. -/
def stripKnownSuffix (s : String) : String :=
  if s.data.reverse.take 4 = (String.data ".pdf").reverse then
    ⟨(s.data.reverse.drop 4).reverse⟩
  else if s.data.reverse.take 5 = (String.data ".json").reverse then
    ⟨(s.data.reverse.drop 5).reverse⟩
  else s

lemma dropTrailingP_snoc (p : Char → Bool) (xs : List Char) (x : Char) :
    dropTrailingP p (xs ++ [x]) = if p x then dropTrailingP p xs else xs ++ [x] := by
  induction xs with
  | nil =>
    simp [dropTrailingP]
  | cons c cs ih =>
    have hstep : dropTrailingP p (c :: (cs ++ [x])) =
        match dropTrailingP p (cs ++ [x]) with
        | [] => if p c then [] else [c]
        | r :: rest => c :: r :: rest := rfl
    rw [List.cons_append, hstep, ih]
    by_cases hx : p x
    · rw [if_pos hx, if_pos hx]
      rfl
    · rw [if_neg hx, if_neg hx]
      cases hcs : cs ++ [x] with
      | nil => exact absurd hcs (by simp)
      | cons a as =>
        rfl

lemma rev_dropWhile_eq_dropTrailingP (p : Char → Bool) (l : List Char) :
    (l.reverse.dropWhile p).reverse = dropTrailingP p l := by
  induction l using List.reverseRecOn with
  | nil => rfl
  | append_singleton xs x ih =>
    rw [dropTrailingP_snoc]
    by_cases hx : p x
    · rw [if_pos hx, ← ih]
      simp [List.dropWhile_cons, hx]
    · rw [if_neg hx]
      simp [List.dropWhile_cons, hx]

lemma dropTrailingP_congr (p q : Char → Bool) :
    ∀ l : List Char, (∀ c ∈ l, p c = q c) → dropTrailingP p l = dropTrailingP q l := by
  intro l
  induction l with
  | nil => intro _; rfl
  | cons c cs ih =>
    intro h
    have hcs := ih fun x hx => h x (List.mem_cons_of_mem _ hx)
    have hc := h c (List.mem_cons_self _ _)
    simp only [dropTrailingP, hcs, hc]

lemma kept_pyIsSpace_eq_isWhitespace (c : Char) (h : keepChar c = true) :
    pyIsSpace c = c.isWhitespace := by
  cases hp : pyIsSpace c with
  | true =>
    have hmem : c = ' ' ∨ c = '\t' ∨ c = '\n' ∨ c = '\r' ∨ c = Char.ofNat 11 ∨ c = Char.ofNat 12 := by
      simpa [pyIsSpace] using hp
    rcases hmem with h1 | h1 | h1 | h1 | h1 | h1 <;> subst h1 <;>
      first
      | rfl
      | exact absurd h (by decide)
  | false =>
    cases hw : c.isWhitespace with
    | false => rfl
    | true =>
      have hmem : c = ' ' ∨ c = '\t' ∨ c = '\r' ∨ c = '\n' := by
        have := hw
        simp only [Char.isWhitespace, Bool.or_eq_true, decide_eq_true_eq] at this
        tauto
      rcases hmem with h1 | h1 | h1 | h1 <;> subst h1 <;>
        exact absurd hp (by decide)

/-- The two sanitiser definitions (the code's and the spec's) agree on
every input string. -/
lemma sanitize_eq_sanitizeSpec (s : String) : sanitize s = sanitizeSpec s := by
  have hfilter : s.data.filter keepChar = s.data.filter keepCharSpec := rfl
  apply congrArg String.mk
  show rstrip (s.data.filter keepChar) = dropTrailingP Char.isWhitespace (s.data.filter keepCharSpec)
  rw [← hfilter, rstrip, rev_dropWhile_eq_dropTrailingP]
  exact dropTrailingP_congr _ _ _ fun c hc =>
    kept_pyIsSpace_eq_isWhitespace c (List.of_mem_filter hc)

lemma char_ofNat_digit_toNat {d : Nat} (h : d < 10) :
    (Char.ofNat (48 + d)).toNat = 48 + d := by
  interval_cases d <;> decide

lemma ofDecimal_toDecimalAux : ∀ (fuel n : Nat), n < fuel →
    ofDecimal (toDecimalAux fuel n) = n := by
  intro fuel
  induction fuel with
  | zero => intro n h; omega
  | succ fuel ih =>
    intro n h
    by_cases h10 : n < 10
    · simp [toDecimalAux, if_pos h10, ofDecimal, List.foldl,
        char_ofNat_digit_toNat h10]
    · have hdiv : n / 10 < fuel := by
        have h1 : n / 10 < n := Nat.div_lt_self (by omega) (by omega)
        omega
      have hm : n % 10 < 10 := Nat.mod_lt _ (by omega)
      simp only [toDecimalAux, if_neg h10, ofDecimal, List.foldl_append]
      have hrec := ih (n / 10) hdiv
      simp only [ofDecimal] at hrec
      simp only [List.foldl, hrec, char_ofNat_digit_toNat hm]
      omega

lemma ofDecimal_toDecimal (n : Nat) : ofDecimal (toDecimal n) = n :=
  ofDecimal_toDecimalAux (n + 1) n (Nat.lt_succ_self n)

lemma toDecimal_injective {m n : Nat} (h : toDecimal m = toDecimal n) : m = n := by
  have := congrArg ofDecimal h
  rwa [ofDecimal_toDecimal, ofDecimal_toDecimal] at this

lemma char_ofNat_digit_ne_underscore {d : Nat} (h : d < 10) :
    Char.ofNat (48 + d) ≠ '_' := by
  interval_cases d <;> decide

lemma underscore_not_mem_toDecimalAux : ∀ (fuel n : Nat), '_' ∉ toDecimalAux fuel n := by
  intro fuel
  induction fuel with
  | zero => intro n; simp [toDecimalAux]
  | succ fuel ih =>
    intro n
    by_cases h10 : n < 10
    · simp only [toDecimalAux, if_pos h10, List.mem_singleton]
      exact fun h => char_ofNat_digit_ne_underscore h10 h.symm
    · simp only [toDecimalAux, if_neg h10, List.mem_append, List.mem_singleton]
      rintro (h | h)
      · exact ih (n / 10) h
      · exact char_ofNat_digit_ne_underscore (Nat.mod_lt _ (by omega)) h.symm

lemma underscore_not_mem_toDecimal (n : Nat) : '_' ∉ toDecimal n :=
  underscore_not_mem_toDecimalAux (n + 1) n

/-- If two lists agree and each starts with an underscore-free block
followed by an underscore, the blocks and the remainders agree. -/
lemma underscore_sep_cancel :
    ∀ (a b r1 r2 : List Char), '_' ∉ a → '_' ∉ b →
      a ++ '_' :: r1 = b ++ '_' :: r2 → a = b ∧ r1 = r2 := by
  intro a
  induction a with
  | nil =>
    intro b r1 r2 _ hb h
    cases b with
    | nil => simpa using h
    | cons c cs =>
      exfalso
      simp only [List.nil_append, List.cons_append, List.cons.injEq] at h
      exact hb (h.1 ▸ List.mem_cons_self _ _)
  | cons c cs ih =>
    intro b r1 r2 ha hb h
    cases b with
    | nil =>
      exfalso
      simp only [List.nil_append, List.cons_append, List.cons.injEq] at h
      exact ha (h.1.symm ▸ List.mem_cons_self _ _)
    | cons d ds =>
      simp only [List.cons_append, List.cons.injEq] at h
      obtain ⟨hcd, htail⟩ := h
      have ha' : '_' ∉ cs := fun hm => ha (List.mem_cons_of_mem _ hm)
      have hb' : '_' ∉ ds := fun hm => hb (List.mem_cons_of_mem _ hm)
      obtain ⟨h1, h2⟩ := ih ds r1 r2 ha' hb' htail
      exact ⟨by rw [hcd, h1], h2⟩

/-- Core uniqueness argument: whatever the prefixes, a trailing
"_<decimal index>" block pins down the index. -/
lemma tail_index_cancel {p q : List Char} {i j : Nat}
    (h : p ++ '_' :: toDecimal i = q ++ '_' :: toDecimal j) : i = j := by
  have hrev := congrArg List.reverse h
  rw [List.reverse_append, List.reverse_cons, List.reverse_append, List.reverse_cons] at hrev
  have h1 : (toDecimal i).reverse ++ '_' :: p.reverse
      = (toDecimal j).reverse ++ '_' :: q.reverse := by
    simpa [List.append_assoc] using hrev
  have hi : '_' ∉ (toDecimal i).reverse := by
    rw [List.mem_reverse]; exact underscore_not_mem_toDecimal i
  have hj : '_' ∉ (toDecimal j).reverse := by
    rw [List.mem_reverse]; exact underscore_not_mem_toDecimal j
  obtain ⟨heq, _⟩ := underscore_sep_cancel _ _ _ _ hi hj h1
  exact toDecimal_injective (List.reverse_injective heq)

lemma base_filename_data (rid company title : String) (i : Nat) :
    (base_filename rid company title i).data
      = (rid.data ++ '_' :: (sanitize company).data ++ '_' :: (sanitize title).data)
        ++ '_' :: toDecimal i := by
  simp [base_filename, String.data_append]

/-- Distinct subjob indices give distinct base filenames, whatever the
resume ids, companies and titles. -/
lemma base_filename_index_ne {rid1 rid2 c1 t1 c2 t2 : String} {i j : Nat}
    (hij : i ≠ j) : base_filename rid1 c1 t1 i ≠ base_filename rid2 c2 t2 j := by
  intro h
  apply hij
  have hd := congrArg String.data h
  rw [base_filename_data, base_filename_data] at hd
  exact tail_index_cancel hd

lemma length_modifyAt {α : Type} (f : α → α) :
    ∀ (n : Nat) (l : List α), (modifyAt f n l).length = l.length := by
  intro n l
  induction l generalizing n with
  | nil => cases n <;> rfl
  | cons x xs ih => cases n with
    | zero => rfl
    | succ m => simp [modifyAt, ih]

lemma get?_modifyAt_self {α : Type} (f : α → α) :
    ∀ (n : Nat) (l : List α), (modifyAt f n l).get? n = (l.get? n).map f := by
  intro n l
  induction l generalizing n with
  | nil => cases n <;> rfl
  | cons x xs ih => cases n with
    | zero => rfl
    | succ m => simpa [modifyAt] using ih m

lemma get?_modifyAt_ne {α : Type} (f : α → α) :
    ∀ (n k : Nat) (l : List α), k ≠ n → (modifyAt f n l).get? k = l.get? k := by
  intro n k l
  induction l generalizing n k with
  | nil => intro _; cases n <;> rfl
  | cons x xs ih =>
    intro hk
    cases n with
    | zero =>
      cases k with
      | zero => exact absurd rfl hk
      | succ k' => rfl
    | succ m =>
      cases k with
      | zero => rfl
      | succ k' => simpa [modifyAt] using ih m k' (by omega)

lemma modifyAt_modifyAt {α : Type} (f g : α → α) :
    ∀ (n : Nat) (l : List α),
      modifyAt f n (modifyAt g n l) = modifyAt (fun x => f (g x)) n l := by
  intro n l
  induction l generalizing n with
  | nil => cases n <;> rfl
  | cons x xs ih => cases n with
    | zero => rfl
    | succ m => simp [modifyAt, ih]

lemma processSubJob_jobs (env : WorkerEnv) (rid : String) (i : Nat) (jd : JobDesc)
    (s : TailoringBatch × FS) :
    (processSubJob env rid i jd s).1.individual_jobs
      = modifyAt (finalUpd env rid i jd) i s.1.individual_jobs := by
  cases h : env.tailor i
  all_goals
    simp only [processSubJob, h, setJob, modifyAt_modifyAt]
    congr 1
    funext x
    simp only [finalUpd, h]

lemma processSubJob_fs (env : WorkerEnv) (rid : String) (i : Nat) (jd : JobDesc)
    (s : TailoringBatch × FS) :
    (processSubJob env rid i jd s).2
      = match env.tailor i with
        | TailorOutcome.raises _ => s.2
        | TailorOutcome.empty => s.2
        | TailorOutcome.success c =>
          if env.pdfOk i then
            (pdfFilename rid jd i, c) :: (jsonFilename rid jd i, c) :: s.2
          else (jsonFilename rid jd i, c) :: s.2 := by
  cases h : env.tailor i <;> simp only [processSubJob, h]

/-! ## Loop lemmas -/
lemma tailorLoop_length (env : WorkerEnv) (rid : String) :
    ∀ (jds : List JobDesc) (i : Nat) (s : TailoringBatch × FS),
      (tailorLoop env rid i jds s).1.individual_jobs.length
        = s.1.individual_jobs.length := by
  intro jds
  induction jds with
  | nil => intro i s; rfl
  | cons jd rest ih =>
    intro i s
    rw [tailorLoop, ih, processSubJob_jobs]
    exact length_modifyAt _ _ _

lemma tailorLoop_get?_lt (env : WorkerEnv) (rid : String) :
    ∀ (jds : List JobDesc) (i : Nat) (s : TailoringBatch × FS) (k : Nat), k < i →
      (tailorLoop env rid i jds s).1.individual_jobs.get? k
        = s.1.individual_jobs.get? k := by
  intro jds
  induction jds with
  | nil => intro i s k _; rfl
  | cons jd rest ih =>
    intro i s k hk
    rw [tailorLoop, ih (i + 1) _ k (by omega), processSubJob_jobs]
    exact get?_modifyAt_ne _ i k _ (by omega)

lemma tailorLoop_get?_processed (env : WorkerEnv) (rid : String) :
    ∀ (jds : List JobDesc) (i : Nat) (s : TailoringBatch × FS) (m : Nat) (jd : JobDesc),
      jds.get? m = some jd →
      (tailorLoop env rid i jds s).1.individual_jobs.get? (i + m)
        = (s.1.individual_jobs.get? (i + m)).map (finalUpd env rid (i + m) jd) := by
  intro jds
  induction jds with
  | nil => intro i s m jd h; exact absurd h (by simp)
  | cons jd0 rest ih =>
    intro i s m jd h
    cases m with
    | zero =>
      have hjd : jd = jd0 := by simpa using h.symm
      subst hjd
      rw [tailorLoop, tailorLoop_get?_lt env rid rest (i + 1) _ (i + 0) (by omega)]
      rw [processSubJob_jobs]
      simpa using get?_modifyAt_self (finalUpd env rid i jd) i s.1.individual_jobs
    | succ m' =>
      have hrest : rest.get? m' = some jd := by simpa using h
      have harith : i + (m' + 1) = (i + 1) + m' := by omega
      rw [tailorLoop, harith, ih (i + 1) _ m' jd hrest, processSubJob_jobs]
      rw [get?_modifyAt_ne _ i ((i + 1) + m') _ (by omega)]

lemma tailorLoop_append (env : WorkerEnv) (rid : String) :
    ∀ (l1 l2 : List JobDesc) (i : Nat) (s : TailoringBatch × FS),
      tailorLoop env rid i (l1 ++ l2) s
        = tailorLoop env rid (i + l1.length) l2 (tailorLoop env rid i l1 s) := by
  intro l1
  induction l1 with
  | nil => intro l2 i s; simp [tailorLoop]
  | cons jd rest ih =>
    intro l2 i s
    have harith : i + (rest.length + 1) = (i + 1) + rest.length := by omega
    simp only [List.cons_append, tailorLoop, List.length_cons, harith]
    exact ih l2 (i + 1) (processSubJob env rid i jd s)

/-! ## Filename disjointness -/
lemma append_suffix_ne {a b : String} (suf : String) (h : a ≠ b) :
    a ++ suf ≠ b ++ suf := by
  intro heq
  apply h
  have hd := congrArg String.data heq
  rw [String.data_append, String.data_append] at hd
  exact String.ext (List.append_cancel_right hd)

lemma jsonFilename_index_ne {rid1 rid2 : String} {jd1 jd2 : JobDesc} {i j : Nat}
    (hij : i ≠ j) : jsonFilename rid1 jd1 i ≠ jsonFilename rid2 jd2 j :=
  append_suffix_ne _ (base_filename_index_ne hij)

lemma pdfFilename_index_ne {rid1 rid2 : String} {jd1 jd2 : JobDesc} {i j : Nat}
    (hij : i ≠ j) : pdfFilename rid1 jd1 i ≠ pdfFilename rid2 jd2 j :=
  append_suffix_ne _ (base_filename_index_ne hij)

lemma json_ne_pdf (b1 b2 : String) : b1 ++ ".json" ≠ b2 ++ ".pdf" := by
  intro h
  have hd := congrArg (fun s => s.data.reverse) h
  simp only [String.data_append, List.reverse_append] at hd
  have h1 : (String.data ".json").reverse = 'n' :: (String.data ".jso").reverse := by decide
  have h2 : (String.data ".pdf").reverse = 'f' :: (String.data ".pd").reverse := by decide
  rw [h1, h2] at hd
  simp only [List.cons_append, List.cons.injEq] at hd
  exact absurd hd.1 (by decide)

lemma jsonFilename_ne_pdfFilename (rid1 rid2 : String) (jd1 jd2 : JobDesc)
    (i j : Nat) : jsonFilename rid1 jd1 i ≠ pdfFilename rid2 jd2 j :=
  json_ne_pdf _ _

/-- Filesystem frame lemma: the loop starting at position i only writes
artifact filenames of the processed indices, so any other key keeps its
content. -/
lemma tailorLoop_fsGet (env : WorkerEnv) (rid : String) :
    ∀ (jds : List JobDesc) (i : Nat) (s : TailoringBatch × FS) (key : String),
      (∀ m jd, jds.get? m = some jd →
        key ≠ jsonFilename rid jd (i + m) ∧ key ≠ pdfFilename rid jd (i + m)) →
      fsGet (tailorLoop env rid i jds s).2 key = fsGet s.2 key := by
  intro jds
  induction jds with
  | nil => intro i s key _; rfl
  | cons jd0 rest ih =>
    intro i s key hkey
    have hrest : ∀ m jd, rest.get? m = some jd →
        key ≠ jsonFilename rid jd ((i + 1) + m) ∧ key ≠ pdfFilename rid jd ((i + 1) + m) := by
      intro m jd hm
      have harith : (i + 1) + m = i + (m + 1) := by omega
      rw [harith]
      exact hkey (m + 1) jd (by simpa using hm)
    have h0 := hkey 0 jd0 (by simp)
    rw [tailorLoop, ih (i + 1) _ key hrest, processSubJob_fs]
    cases h : env.tailor i with
    | raises msg => rfl
    | empty => rfl
    | success c =>
      simp only []
      have hj : key ≠ jsonFilename rid jd0 i := by simpa using h0.1
      have hp : key ≠ pdfFilename rid jd0 i := by simpa using h0.2
      by_cases hpdf : env.pdfOk i
      · simp [hpdf, fsGet, if_neg hj, if_neg hp]
      · simp [hpdf, fsGet, if_neg hj]

/-! ## Aggregation lemmas (finalize) -/
lemma finalizeBatch_jobs (b : TailoringBatch) :
    (finalizeBatch b).individual_jobs = b.individual_jobs := by
  rw [finalizeBatch]
  split
  · split <;> rfl
  · rfl

lemma finalizeBatch_resume_id (b : TailoringBatch) :
    (finalizeBatch b).resume_id = b.resume_id := by
  rw [finalizeBatch]
  split
  · split <;> rfl
  · rfl

/-! ## Worker run lemmas -/
lemma tailorLoop_get?_ge (env : WorkerEnv) (rid : String) :
    ∀ (jds : List JobDesc) (i : Nat) (s : TailoringBatch × FS) (k : Nat),
      i + jds.length ≤ k →
      (tailorLoop env rid i jds s).1.individual_jobs.get? k
        = s.1.individual_jobs.get? k := by
  intro jds
  induction jds with
  | nil => intro i s k _; rfl
  | cons jd rest ih =>
    intro i s k hk
    simp only [List.length_cons] at hk
    rw [tailorLoop, ih (i + 1) _ k (by omega), processSubJob_jobs]
    exact get?_modifyAt_ne _ i k _ (by omega)

lemma mkIndividualJobsFrom_length :
    ∀ (jds : List JobDesc) (i : Nat), (mkIndividualJobsFrom i jds).length = jds.length := by
  intro jds
  induction jds with
  | nil => intro i; rfl
  | cons jd rest ih => intro i; simp [mkIndividualJobsFrom, ih]

lemma mkIndividualJobsFrom_get? :
    ∀ (jds : List JobDesc) (i k : Nat) (jd : JobDesc), jds.get? k = some jd →
      (mkIndividualJobsFrom i jds).get? k = some (pendingJob (i + k) jd) := by
  intro jds
  induction jds with
  | nil => intro i k jd h; exact absurd h (by simp)
  | cons jd0 rest ih =>
    intro i k jd h
    cases k with
    | zero =>
      have : jd = jd0 := by simpa using h.symm
      subst this
      rfl
    | succ k' =>
      have hr : rest.get? k' = some jd := by simpa using h
      have harith : i + (k' + 1) = (i + 1) + k' := by omega
      rw [harith]
      simpa [mkIndividualJobsFrom] using ih (i + 1) k' jd hr

lemma finalUpd_job_index (env : WorkerEnv) (rid : String) (i : Nat) (jd : JobDesc)
    (j : SubJob) : (finalUpd env rid i jd j).job_index = j.job_index := by
  cases h : env.tailor i <;> simp [finalUpd, h]

lemma perform_tailoring_jobs (env : WorkerEnv) (b : TailoringBatch) (fs : FS) :
    (perform_tailoring env b fs).1.individual_jobs
      = (tailorLoop env b.resume_id 0 b.job_descriptions
          ({ b with status := JobState.processing }, fs)).1.individual_jobs := by
  rw [perform_tailoring]
  exact finalizeBatch_jobs _

lemma perform_tailoring_get? (env : WorkerEnv) (b : TailoringBatch) (fs : FS)
    (k : Nat) (jd : JobDesc) (hjd : b.job_descriptions.get? k = some jd) :
    (perform_tailoring env b fs).1.individual_jobs.get? k
      = (b.individual_jobs.get? k).map (finalUpd env b.resume_id k jd) := by
  have h := tailorLoop_get?_processed env b.resume_id b.job_descriptions 0
    ({ b with status := JobState.processing }, fs) k jd hjd
  rw [Nat.zero_add] at h
  rw [perform_tailoring_jobs]
  exact h

lemma perform_tailoring_length (env : WorkerEnv) (b : TailoringBatch) (fs : FS) :
    (perform_tailoring env b fs).1.individual_jobs.length
      = b.individual_jobs.length := by
  rw [perform_tailoring_jobs]
  exact tailorLoop_length env b.resume_id b.job_descriptions 0 _

lemma perform_tailoring_fs (env : WorkerEnv) (b : TailoringBatch) (fs : FS) :
    (perform_tailoring env b fs).2
      = (tailorLoop env b.resume_id 0 b.job_descriptions
          ({ b with status := JobState.processing }, fs)).2 := rfl

lemma run_all_terminal (env : WorkerEnv) (b : TailoringBatch) (fs : FS)
    (hlen : b.individual_jobs.length = b.job_descriptions.length) :
    ∀ j ∈ (perform_tailoring env b fs).1.individual_jobs,
      j.status = JobState.completed ∨ j.status = JobState.failed := by
  intro j hj
  obtain ⟨k, hk⟩ := List.mem_iff_get?.mp hj
  have hklen : k < (perform_tailoring env b fs).1.individual_jobs.length := by
    obtain ⟨h, _⟩ := List.get?_eq_some.mp hk
    exact h
  rw [perform_tailoring_length] at hklen
  have hkjds : k < b.job_descriptions.length := by omega
  obtain ⟨jd, hjd⟩ : ∃ jd, b.job_descriptions.get? k = some jd :=
    ⟨_, List.get?_eq_get hkjds⟩
  rw [perform_tailoring_get? env b fs k jd hjd] at hk
  obtain ⟨j0, _, hj0⟩ := Option.map_eq_some'.mp hk
  subst hj0
  cases h : env.tailor k with
  | raises msg => right; simp [finalUpd, h]
  | empty => right; simp [finalUpd, h]
  | success c => left; simp [finalUpd, h]

lemma countP_completed_pos_iff (jobs : List SubJob) :
    (0 < jobs.countP fun j => decide (j.status = JobState.completed)) ↔
      ∃ j ∈ jobs, j.status = JobState.completed := by
  rw [List.countP_pos_iff]
  simp

lemma finalizeBatch_status_completed (b : TailoringBatch)
    (h : ∃ j ∈ b.individual_jobs, j.status = JobState.completed) :
    (finalizeBatch b).status = JobState.completed := by
  have hpos := (countP_completed_pos_iff b.individual_jobs).mpr h
  rw [finalizeBatch, if_pos hpos]
  split <;> rfl

lemma finalizeBatch_all_failed (b : TailoringBatch)
    (h : ∀ j ∈ b.individual_jobs, ¬ j.status = JobState.completed) :
    (finalizeBatch b).status = JobState.failed ∧
      (finalizeBatch b).error_message = some "All jobs failed to process" := by
  have hz : ¬ (0 < b.individual_jobs.countP fun j => decide (j.status = JobState.completed)) := by
    intro hpos
    obtain ⟨j, hj, hcj⟩ := (countP_completed_pos_iff b.individual_jobs).mp hpos
    exact h j hj hcj
  rw [finalizeBatch, if_neg hz]
  exact ⟨rfl, rfl⟩

lemma finalizeBatch_partial (b : TailoringBatch)
    (hc : ∃ j ∈ b.individual_jobs, j.status = JobState.completed)
    (hf : ∃ j ∈ b.individual_jobs, j.status = JobState.failed) :
    ((finalizeBatch b).error_message).isSome = true := by
  have hpos := (countP_completed_pos_iff b.individual_jobs).mpr hc
  have hne : ¬ (b.individual_jobs.countP fun j => decide (j.status = JobState.completed))
      = b.individual_jobs.length := by
    intro heq
    have hall := List.countP_eq_length.mp heq
    obtain ⟨j, hj, hfj⟩ := hf
    have := hall j hj
    rw [hfj] at this
    exact absurd this (by decide)
  rw [finalizeBatch, if_pos hpos, if_neg hne]
  rfl

/-! ## Claim theorems -/
/-- C9: For every input string, sanitization keeps exactly the characters
that are alphanumeric, space, hyphen, or underscore, removes every other
character, and then trims trailing whitespace; in particular company
"Acme, Inc." sanitizes to "Acme Inc". -/
theorem claim9_sanitization (s : String) :
    sanitize s = sanitizeSpec s ∧ sanitize "Acme, Inc." = "Acme Inc" :=
  ⟨sanitize_eq_sanitizeSpec s, by decide⟩

/-- C4: within one batch, any two subjobs at distinct indices have distinct
derived artifact base filenames, even with identical company and title;
e.g. company "Acme", title "Engineer" at indices 0 and 1 give
r_Acme_Engineer_0 and r_Acme_Engineer_1. -/
theorem claim4_filename_uniqueness (rid c1 t1 c2 t2 : String) (i j : Nat)
    (h : i ≠ j) :
    base_filename rid c1 t1 i ≠ base_filename rid c2 t2 j ∧
    base_filename "r" "Acme" "Engineer" 0 = "r_Acme_Engineer_0" ∧
    base_filename "r" "Acme" "Engineer" 1 = "r_Acme_Engineer_1" :=
  ⟨base_filename_index_ne h, by decide, by decide⟩

/-- Witness for C4 at indices 0 and 1 with identical company and title. -/
theorem claim4_witness :
    base_filename "r" "Acme" "Engineer" 0 ≠ base_filename "r" "Acme" "Engineer" 1 :=
  (claim4_filename_uniqueness "r" "Acme" "Engineer" "Acme" "Engineer" 0 1 (by decide)).1

/-- C2: the four submit preconditions are checked in source order, each
with its own distinct failure (unknown resume: NotFound; no extraction
entry: NotExtracted; extraction entry not completed, in particular
pending: ExtractionIncomplete; completed but empty data: NoData), and on
every failure the whole server state, hence the tailoring-jobs registry,
is unchanged. -/
theorem claim2_submit_preconditions (st : ServerState) (rid tid : String)
    (jds : List JobDesc) :
    (st.resume_storage rid = none →
      tailor_resume st rid jds tid = (st, Except.error ApiError.NotFound)) ∧
    (∀ r, st.resume_storage rid = some r → st.extraction_status rid = none →
      tailor_resume st rid jds tid = (st, Except.error ApiError.NotExtracted)) ∧
    (∀ r es, st.resume_storage rid = some r → st.extraction_status rid = some es →
      es.status ≠ JobState.completed →
      tailor_resume st rid jds tid = (st, Except.error ApiError.ExtractionIncomplete)) ∧
    (∀ r es, st.resume_storage rid = some r → st.extraction_status rid = some es →
      es.status = JobState.pending →
      tailor_resume st rid jds tid = (st, Except.error ApiError.ExtractionIncomplete)) ∧
    (∀ r es, st.resume_storage rid = some r → st.extraction_status rid = some es →
      es.status = JobState.completed → dataTruthy es.extracted_data = false →
      tailor_resume st rid jds tid = (st, Except.error ApiError.NoData)) ∧
    (∀ e, (tailor_resume st rid jds tid).2 = Except.error e →
      (tailor_resume st rid jds tid).1 = st) := by
  refine ⟨?_, ?_, ?_, ?_, ?_, ?_⟩
  · intro h
    simp [tailor_resume, h]
  · intro r h1 h2
    simp [tailor_resume, h1, h2]
  · intro r es h1 h2 h3
    simp [tailor_resume, h1, h2, h3]
  · intro r es h1 h2 h3
    simp [tailor_resume, h1, h2, h3]
  · intro r es h1 h2 h3 h4
    simp [tailor_resume, h1, h2, h3, h4]
  · intro e he
    unfold tailor_resume at he ⊢
    cases h1 : st.resume_storage rid with
    | none => rfl
    | some r =>
      cases h2 : st.extraction_status rid with
      | none => simp [h1, h2]
      | some es =>
        simp only [h1, h2] at he ⊢
        by_cases h3 : es.status = JobState.completed
        · simp only [h3, ne_eq, not_true_eq_false, if_false, reduceIte] at he ⊢
          by_cases h4 : dataTruthy es.extracted_data
          · simp [h4] at he
          · simp [h4]
        · simp [h3]

/-- Witness for C2: unknown resume is NotFound with no state change, and a
pending extraction is ExtractionIncomplete with no state change. -/
theorem claim2_witness :
    tailor_resume emptyServerState "r1" [] "t1"
      = (emptyServerState, Except.error ApiError.NotFound) ∧
    tailor_resume (upload_resume emptyServerState "r1" "cv.pdf") "r1" [] "t1"
      = (upload_resume emptyServerState "r1" "cv.pdf",
         Except.error ApiError.ExtractionIncomplete) :=
  ⟨(claim2_submit_preconditions emptyServerState "r1" "t1" []).1 rfl,
   (claim2_submit_preconditions (upload_resume emptyServerState "r1" "cv.pdf")
      "r1" "t1" []).2.2.2.1 _ _ rfl rfl rfl⟩

/-- C10: a submit call with an empty job-description list, all
preconditions holding, succeeds, creates a batch with zero subjobs, and
the worker run then marks the batch failed with error message "All jobs
failed to process" even though no subjob exists. -/
theorem claim10_empty_submission (st : ServerState) (rid tid : String)
    (r : ResumeRecord) (es : ExtractionStatus) (env : WorkerEnv) (fs : FS)
    (hr : st.resume_storage rid = some r)
    (hes : st.extraction_status rid = some es)
    (hst : es.status = JobState.completed)
    (hd : dataTruthy es.extracted_data = true) :
    (tailor_resume st rid [] tid).2 = Except.ok tid ∧
    (tailor_resume st rid [] tid).1.tailoring_jobs tid = some
      { resume_id := rid, job_descriptions := [], status := JobState.pending,
        individual_jobs := [], error_message := none } ∧
    (perform_tailoring env
      { resume_id := rid, job_descriptions := [], status := JobState.pending,
        individual_jobs := [], error_message := none } fs).1.status
      = JobState.failed ∧
    (perform_tailoring env
      { resume_id := rid, job_descriptions := [], status := JobState.pending,
        individual_jobs := [], error_message := none } fs).1.error_message
      = some "All jobs failed to process" := by
  refine ⟨?_, ?_, ?_, ?_⟩
  · simp [tailor_resume, hr, hes, hst, hd]
  · simp [tailor_resume, hr, hes, hst, hd, mapUpdate, mkIndividualJobs,
      mkIndividualJobsFrom]
  · rfl
  · rfl

/-- Witness for C10 at a concrete state with a completed extraction. -/
theorem claim10_witness :
    (tailor_resume
      (perform_extraction (upload_resume emptyServerState "r1" "cv.pdf") "r1"
        (ParseOutcome.value (some [("name", "x")])))
      "r1" [] "t1").2 = Except.ok "t1" ∧
    (tailor_resume
      (perform_extraction (upload_resume emptyServerState "r1" "cv.pdf") "r1"
        (ParseOutcome.value (some [("name", "x")])))
      "r1" [] "t1").1.tailoring_jobs "t1" = some
      { resume_id := "r1", job_descriptions := [], status := JobState.pending,
        individual_jobs := [], error_message := none } ∧
    (perform_tailoring { tailor := fun _ => TailorOutcome.empty, pdfOk := fun _ => false }
      { resume_id := "r1", job_descriptions := [], status := JobState.pending,
        individual_jobs := [], error_message := none } []).1.status
      = JobState.failed ∧
    (perform_tailoring { tailor := fun _ => TailorOutcome.empty, pdfOk := fun _ => false }
      { resume_id := "r1", job_descriptions := [], status := JobState.pending,
        individual_jobs := [], error_message := none } []).1.error_message
      = some "All jobs failed to process" :=
  claim10_empty_submission
    (perform_extraction (upload_resume emptyServerState "r1" "cv.pdf") "r1"
      (ParseOutcome.value (some [("name", "x")])))
    "r1" "t1"
    { filename := "cv.pdf", file_path := "uploads/r1_cv.pdf", status := "uploaded" }
    { status := JobState.completed, extracted_data := some [("name", "x")],
      error_message := none }
    { tailor := fun _ => TailorOutcome.empty, pdfOk := fun _ => false } []
    rfl rfl rfl rfl

/-- C1: for every batch whose worker run finishes normally, once every
subjob is terminal the overall state is completed iff at least one
subjob completed (with an advisory error message on partial failure),
and when every subjob failed the state is failed with error message
"All jobs failed to process". -/
theorem claim1_overall_aggregation (env : WorkerEnv) (b : TailoringBatch) (fs : FS)
    (hlen : b.individual_jobs.length = b.job_descriptions.length) :
    (∀ j ∈ (perform_tailoring env b fs).1.individual_jobs,
      j.status = JobState.completed ∨ j.status = JobState.failed) ∧
    ((perform_tailoring env b fs).1.status = JobState.completed ↔
      ∃ j ∈ (perform_tailoring env b fs).1.individual_jobs,
        j.status = JobState.completed) ∧
    ((∃ j ∈ (perform_tailoring env b fs).1.individual_jobs,
        j.status = JobState.completed) →
      (∃ j ∈ (perform_tailoring env b fs).1.individual_jobs,
        j.status = JobState.failed) →
      ((perform_tailoring env b fs).1.error_message).isSome = true) ∧
    ((∀ j ∈ (perform_tailoring env b fs).1.individual_jobs,
        j.status = JobState.failed) →
      (perform_tailoring env b fs).1.status = JobState.failed ∧
      (perform_tailoring env b fs).1.error_message
        = some "All jobs failed to process") := by
  have hjobs : (perform_tailoring env b fs).1.individual_jobs
      = (tailorLoop env b.resume_id 0 b.job_descriptions
          ({ b with status := JobState.processing }, fs)).1.individual_jobs :=
    perform_tailoring_jobs env b fs
  refine ⟨run_all_terminal env b fs hlen, ?_, ?_, ?_⟩
  · constructor
    · intro hst
      by_contra hno
      push_neg at hno
      have hall : ∀ j ∈ (tailorLoop env b.resume_id 0 b.job_descriptions
          ({ b with status := JobState.processing }, fs)).1.individual_jobs,
          ¬ j.status = JobState.completed := by
        intro j hj
        exact hno j (by rw [hjobs]; exact hj)
      have hfail := (finalizeBatch_all_failed _ hall).1
      have hcontra : JobState.completed = JobState.failed := by
        rw [← hst]; exact hfail
      exact absurd hcontra (by decide)
    · intro hex
      obtain ⟨j, hj, hc⟩ := hex
      rw [hjobs] at hj
      exact finalizeBatch_status_completed _ ⟨j, hj, hc⟩
  · intro hc hf
    obtain ⟨jc, hjc, hcc⟩ := hc
    rw [hjobs] at hjc
    obtain ⟨jf, hjf, hff⟩ := hf
    rw [hjobs] at hjf
    exact finalizeBatch_partial _ ⟨jc, hjc, hcc⟩ ⟨jf, hjf, hff⟩
  · intro hallf
    have hall : ∀ j ∈ (tailorLoop env b.resume_id 0 b.job_descriptions
        ({ b with status := JobState.processing }, fs)).1.individual_jobs,
        ¬ j.status = JobState.completed := by
      intro j hj hcj
      have hfj := hallf j (by rw [hjobs]; exact hj)
      rw [hcj] at hfj
      exact absurd hfj (by decide)
    exact finalizeBatch_all_failed _ hall

/-- Witness for C1: a two-subjob batch where one subjob succeeds and one
raises ends with overall state completed. -/
theorem claim1_witness :
    (perform_tailoring
      { tailor := fun i => if i = 0 then TailorOutcome.success [("a", "b")]
          else TailorOutcome.raises "x",
        pdfOk := fun _ => false }
      { resume_id := "r",
        job_descriptions := [{ title := some "T1", company := some "C1" },
          { title := some "T2", company := some "C2" }],
        status := JobState.pending,
        individual_jobs := mkIndividualJobs
          [{ title := some "T1", company := some "C1" },
           { title := some "T2", company := some "C2" }],
        error_message := none } []).1.status = JobState.completed :=
  ((claim1_overall_aggregation
      { tailor := fun i => if i = 0 then TailorOutcome.success [("a", "b")]
          else TailorOutcome.raises "x",
        pdfOk := fun _ => false }
      { resume_id := "r",
        job_descriptions := [{ title := some "T1", company := some "C1" },
          { title := some "T2", company := some "C2" }],
        status := JobState.pending,
        individual_jobs := mkIndividualJobs
          [{ title := some "T1", company := some "C1" },
           { title := some "T2", company := some "C2" }],
        error_message := none } [] rfl).2.1).mpr (by decide)

/-- C3: a submitted list of N job descriptions yields exactly N subjobs,
index aligned with the input, and neither the worker run nor the pure
status projection ever changes the count or the positional indices. -/
theorem claim3_subjob_count_invariant (jds : List JobDesc) (env : WorkerEnv)
    (b : TailoringBatch) (fs : FS) :
    (mkIndividualJobs jds).length = jds.length ∧
    (∀ k jd, jds.get? k = some jd →
      (mkIndividualJobs jds).get? k = some (pendingJob k jd)) ∧
    (perform_tailoring env b fs).1.individual_jobs.length
      = b.individual_jobs.length ∧
    (∀ k, ((perform_tailoring env b fs).1.individual_jobs.get? k).map SubJob.job_index
        = (b.individual_jobs.get? k).map SubJob.job_index) := by
  refine ⟨mkIndividualJobsFrom_length jds 0, ?_,
    perform_tailoring_length env b fs, ?_⟩
  · intro k jd h
    have hk := mkIndividualJobsFrom_get? jds 0 k jd h
    rwa [Nat.zero_add] at hk
  · intro k
    by_cases hk : k < b.job_descriptions.length
    · obtain ⟨jd, hjd⟩ : ∃ jd, b.job_descriptions.get? k = some jd :=
        ⟨_, List.get?_eq_get hk⟩
      rw [perform_tailoring_get? env b fs k jd hjd]
      cases hbk : b.individual_jobs.get? k with
      | none => rfl
      | some j0 => simp [finalUpd_job_index]
    · have hge : 0 + b.job_descriptions.length ≤ k := by omega
      rw [perform_tailoring_jobs,
        tailorLoop_get?_ge env b.resume_id b.job_descriptions 0 _ k hge]

/-- Witness for C3: one job description gives the index-0 pending subjob. -/
theorem claim3_witness :
    (mkIndividualJobs [{ title := some "T", company := some "C" }]).get? 0
      = some (pendingJob 0 { title := some "T", company := some "C" }) :=
  (claim3_subjob_count_invariant [{ title := some "T", company := some "C" }]
    { tailor := fun _ => TailorOutcome.empty, pdfOk := fun _ => false }
    { resume_id := "r", job_descriptions := [], status := JobState.pending,
      individual_jobs := [], error_message := none } []).2.1 0 _ rfl

/-- C5: an exception while processing subjob i leaves exactly that subjob
failed with the raised message (progress, result and links cleared), and
every other subjob is still processed and reaches completed whenever its
own tailoring call succeeds. -/
theorem claim5_failure_isolation (env : WorkerEnv) (b : TailoringBatch) (fs : FS)
    (i : Nat) (msg : String) (jd : JobDesc) (j0 : SubJob)
    (henv : env.tailor i = TailorOutcome.raises msg)
    (hjd : b.job_descriptions.get? i = some jd)
    (hj : b.individual_jobs.get? i = some j0) :
    (perform_tailoring env b fs).1.individual_jobs.get? i = some
      { j0 with
        status := JobState.failed, progress_message := none,
        tailored_resume := none, download_links := none,
        error_message := some msg } ∧
    (∀ k jdk c jk, b.job_descriptions.get? k = some jdk →
      env.tailor k = TailorOutcome.success c →
      b.individual_jobs.get? k = some jk →
      (perform_tailoring env b fs).1.individual_jobs.get? k = some
        { jk with
          status := JobState.completed,
          progress_message := some "Resume tailored successfully!",
          tailored_resume := some c,
          download_links := some (mkLinks (env.pdfOk k) b.resume_id jdk k),
          error_message := none }) := by
  constructor
  · rw [perform_tailoring_get? env b fs i jd hjd, hj]
    simp [finalUpd, henv]
  · intro k jdk c jk hjdk henvk hjk
    rw [perform_tailoring_get? env b fs k jdk hjdk, hjk]
    simp [finalUpd, henvk]

/-- Witness for C5: subjob 0 raises, subjob 1 succeeds; subjob 0 ends
failed with the raised message. -/
theorem claim5_witness :
    (perform_tailoring
      { tailor := fun i => if i = 0 then TailorOutcome.raises "boom"
          else TailorOutcome.success [("a", "b")],
        pdfOk := fun _ => false }
      { resume_id := "r",
        job_descriptions := [{ title := some "T1", company := some "C1" },
          { title := some "T2", company := some "C2" }],
        status := JobState.pending,
        individual_jobs := mkIndividualJobs
          [{ title := some "T1", company := some "C1" },
           { title := some "T2", company := some "C2" }],
        error_message := none } []).1.individual_jobs.get? 0 = some
      { pendingJob 0 { title := some "T1", company := some "C1" } with
        status := JobState.failed,
        progress_message := none,
        tailored_resume := none,
        download_links := none,
        error_message := some "boom" } :=
  (claim5_failure_isolation
    { tailor := fun i => if i = 0 then TailorOutcome.raises "boom"
        else TailorOutcome.success [("a", "b")],
      pdfOk := fun _ => false }
    { resume_id := "r",
      job_descriptions := [{ title := some "T1", company := some "C1" },
        { title := some "T2", company := some "C2" }],
      status := JobState.pending,
      individual_jobs := mkIndividualJobs
        [{ title := some "T1", company := some "C1" },
         { title := some "T2", company := some "C2" }],
      error_message := none } [] 0 "boom"
    { title := some "T1", company := some "C1" }
    (pendingJob 0 { title := some "T1", company := some "C1" })
    rfl rfl rfl).1

/-- C6: when the tailoring collaborator returns a non-empty result, a PDF
rendering failure does not fail the subjob: it ends completed with its
result stored, the json link always names the json artifact (which is
persisted), and the pdf link names the pdf artifact when rendering
succeeded (which is then persisted too) and the on-demand conversion
endpoint keyed by the json artifact otherwise. -/
theorem claim6_render_failure_tolerated (env : WorkerEnv) (b : TailoringBatch)
    (fs : FS) (i : Nat) (c : ResumeData) (jd : JobDesc) (j0 : SubJob)
    (henv : env.tailor i = TailorOutcome.success c)
    (hjd : b.job_descriptions.get? i = some jd)
    (hj : b.individual_jobs.get? i = some j0) :
    (perform_tailoring env b fs).1.individual_jobs.get? i = some
      { j0 with
        status := JobState.completed,
        progress_message := some "Resume tailored successfully!",
        tailored_resume := some c,
        download_links := some
          { json := "/api/download/" ++ jsonFilename b.resume_id jd i,
            pdf := if env.pdfOk i then
                "/api/download/" ++ pdfFilename b.resume_id jd i
              else "/api/download/" ++ jsonFilename b.resume_id jd i ++ "/pdf" },
        error_message := none } ∧
    fsGet (perform_tailoring env b fs).2 (jsonFilename b.resume_id jd i)
      = some c ∧
    (env.pdfOk i = true →
      fsGet (perform_tailoring env b fs).2 (pdfFilename b.resume_id jd i)
        = some c) := by
  have hi : i < b.job_descriptions.length := by
    obtain ⟨h, _⟩ := List.get?_eq_some.mp hjd
    exact h
  have hsplit : b.job_descriptions
      = b.job_descriptions.take i ++ jd :: b.job_descriptions.drop (i + 1) := by
    conv_lhs => rw [← List.take_append_drop i b.job_descriptions]
    have hdrop : b.job_descriptions.drop i
        = jd :: b.job_descriptions.drop (i + 1) := by
      rw [List.drop_eq_getElem_cons hi]
      have hgetel : b.job_descriptions[i] = jd := by
        have h1 : b.job_descriptions[i]? = some jd := by
          rw [← List.get?_eq_getElem?]
          exact hjd
        rw [List.getElem?_eq_getElem hi] at h1
        exact Option.some.inj h1
      rw [hgetel]
    rw [hdrop]
  have htake : (b.job_descriptions.take i).length = i := by
    rw [List.length_take]
    omega
  have hrun : ∀ s : TailoringBatch × FS,
      tailorLoop env b.resume_id 0 b.job_descriptions s
        = tailorLoop env b.resume_id (i + 1) (b.job_descriptions.drop (i + 1))
            (processSubJob env b.resume_id i jd
              (tailorLoop env b.resume_id 0 (b.job_descriptions.take i) s)) := by
    intro s
    conv_lhs => rw [hsplit]
    rw [tailorLoop_append, htake, Nat.zero_add]
    rfl
  have hfs2 : (perform_tailoring env b fs).2
      = (tailorLoop env b.resume_id (i + 1) (b.job_descriptions.drop (i + 1))
          (processSubJob env b.resume_id i jd
            (tailorLoop env b.resume_id 0 (b.job_descriptions.take i)
              ({ b with status := JobState.processing }, fs)))).2 := by
    rw [perform_tailoring_fs, hrun]
  have hframe : ∀ key : String,
      (∀ m jdm, (b.job_descriptions.drop (i + 1)).get? m = some jdm →
        key ≠ jsonFilename b.resume_id jdm ((i + 1) + m) ∧
        key ≠ pdfFilename b.resume_id jdm ((i + 1) + m)) →
      fsGet (perform_tailoring env b fs).2 key
        = fsGet (processSubJob env b.resume_id i jd
            (tailorLoop env b.resume_id 0 (b.job_descriptions.take i)
              ({ b with status := JobState.processing }, fs))).2 key := by
    intro key hkey
    rw [hfs2]
    exact tailorLoop_fsGet env b.resume_id _ (i + 1) _ key hkey
  have hstep : (processSubJob env b.resume_id i jd
      (tailorLoop env b.resume_id 0 (b.job_descriptions.take i)
        ({ b with status := JobState.processing }, fs))).2
      = if env.pdfOk i then
          (pdfFilename b.resume_id jd i, c)
            :: (jsonFilename b.resume_id jd i, c)
            :: (tailorLoop env b.resume_id 0 (b.job_descriptions.take i)
                ({ b with status := JobState.processing }, fs)).2
        else (jsonFilename b.resume_id jd i, c)
            :: (tailorLoop env b.resume_id 0 (b.job_descriptions.take i)
                ({ b with status := JobState.processing }, fs)).2 := by
    rw [processSubJob_fs]
    simp only [henv]
  refine ⟨?_, ?_, ?_⟩
  · rw [perform_tailoring_get? env b fs i jd hjd, hj]
    simp [finalUpd, henv, mkLinks]
  · rw [hframe _ ?later]
    case later =>
      intro m jdm hm
      constructor
      · exact jsonFilename_index_ne (by omega)
      · exact jsonFilename_ne_pdfFilename _ _ _ _ _ _
    rw [hstep]
    by_cases hpdf : env.pdfOk i
    · rw [if_pos hpdf]
      rw [fsGet, if_neg (jsonFilename_ne_pdfFilename _ _ _ _ _ _), fsGet, if_pos rfl]
    · rw [if_neg hpdf]
      rw [fsGet, if_pos rfl]
  · intro hpdf
    rw [hframe _ ?later2]
    case later2 =>
      intro m jdm hm
      constructor
      · exact Ne.symm (jsonFilename_ne_pdfFilename _ _ _ _ _ _)
      · exact pdfFilename_index_ne (by omega)
    rw [hstep, if_pos hpdf]
    rw [fsGet, if_pos rfl]

/-- Witness for C6: rendering fails (renderer returns false), yet the
json artifact is persisted under its filename. -/
theorem claim6_witness :
    fsGet (perform_tailoring
      { tailor := fun _ => TailorOutcome.success [("a", "b")],
        pdfOk := fun _ => false }
      { resume_id := "r",
        job_descriptions := [{ title := some "T1", company := some "C1" }],
        status := JobState.pending,
        individual_jobs := mkIndividualJobs
          [{ title := some "T1", company := some "C1" }],
        error_message := none } []).2
      (jsonFilename "r" { title := some "T1", company := some "C1" } 0)
      = some [("a", "b")] :=
  (claim6_render_failure_tolerated
    { tailor := fun _ => TailorOutcome.success [("a", "b")],
      pdfOk := fun _ => false }
    { resume_id := "r",
      job_descriptions := [{ title := some "T1", company := some "C1" }],
      status := JobState.pending,
      individual_jobs := mkIndividualJobs
        [{ title := some "T1", company := some "C1" }],
      error_message := none } [] 0 [("a", "b")]
    { title := some "T1", company := some "C1" }
    (pendingJob 0 { title := some "T1", company := some "C1" })
    rfl rfl rfl).2.1

/-- C7 counterexample: re-triggering extraction on a resume whose
extraction already completed sets the state to processing without
clearing the extracted data, so data is non-null while the state is not
completed — the claimed invariant fails in this reachable state. -/
theorem claim7_counterexample :
    ¬ extractionInvariant
      ((extract_resume_data
        (perform_extraction (upload_resume emptyServerState "r1" "cv.pdf") "r1"
          (ParseOutcome.value (some [("name", "x")])))
        "r1").1) := by
  intro h
  have hx := h "r1"
    { status := JobState.processing, extracted_data := some [("name", "x")],
      error_message := none } rfl
  simp at hx

/-- C7 amended: the non-null-iff-completed invariant is preserved by
upload, by the extraction run's terminal write, and by a manual data
update; begin_extraction preserves it only when the resume has no
completed extraction — re-triggering on a completed resume violates it
(see the counterexample) until the new run's terminal write. -/
theorem claim7_amended_invariant (st : ServerState) (rid fname : String)
    (outcome : ParseOutcome) (d : ResumeData) :
    (extractionInvariant st → extractionInvariant (upload_resume st rid fname)) ∧
    (extractionInvariant st →
      extractionInvariant (perform_extraction st rid outcome)) ∧
    (extractionInvariant st →
      extractionInvariant (update_resume_data st rid d).1) ∧
    (extractionInvariant st →
      (∀ es, st.extraction_status rid = some es → es.status ≠ JobState.completed) →
      extractionInvariant (extract_resume_data st rid).1) := by
  refine ⟨?_, ?_, ?_, ?_⟩
  · intro hinv rid2 es2 h2
    simp only [upload_resume, mapUpdate] at h2
    by_cases heq : rid2 = rid
    · rw [if_pos heq] at h2
      cases Option.some.inj h2
      simp
    · rw [if_neg heq] at h2
      exact hinv rid2 es2 h2
  · intro hinv rid2 es2 h2
    simp only [perform_extraction, mapUpdate] at h2
    by_cases heq : rid2 = rid
    · rw [if_pos heq] at h2
      cases Option.some.inj h2
      cases outcome with
      | raises msg => simp [extractionWrite]
      | value od =>
        cases od with
        | none => simp [extractionWrite]
        | some dv =>
          simp only [extractionWrite]
          by_cases hemp : dv.isEmpty
          · simp [hemp]
          · by_cases hkey : dv.lookup "error" = some "api_key_invalid"
            · simp [hemp, hkey]
            · simp [hemp, hkey]
    · rw [if_neg heq] at h2
      exact hinv rid2 es2 h2
  · intro hinv rid2 es2 h2
    rw [update_resume_data] at h2
    cases hes : st.extraction_status rid with
    | none =>
      rw [hes] at h2
      exact hinv rid2 es2 h2
    | some es =>
      rw [hes] at h2
      by_cases hst2 : es.status = JobState.completed
      · simp only [hst2, ne_eq, not_true_eq_false, if_false, reduceIte,
          mapUpdate] at h2
        by_cases heq : rid2 = rid
        · rw [if_pos heq] at h2
          cases Option.some.inj h2
          simp [hst2]
        · rw [if_neg heq] at h2
          exact hinv rid2 es2 h2
      · simp only [hst2, ne_eq, not_false_eq_true, if_true, reduceIte] at h2
        exact hinv rid2 es2 h2
  · intro hinv hnc rid2 es2 h2
    rw [extract_resume_data] at h2
    cases hrs : st.resume_storage rid with
    | none =>
      rw [hrs] at h2
      exact hinv rid2 es2 h2
    | some r =>
      rw [hrs] at h2
      simp only [mapUpdate] at h2
      by_cases heq : rid2 = rid
      · rw [if_pos heq] at h2
        cases Option.some.inj h2
        cases hes : st.extraction_status rid with
        | none => simp [hes]
        | some es =>
          have hne := hnc es hes
          have hdata : es.extracted_data.isSome = false := by
            cases hd : es.extracted_data.isSome with
            | false => rfl
            | true => exact absurd ((hinv rid es hes).mp hd) hne
          simp [hes, hdata]
      · rw [if_neg heq] at h2
        exact hinv rid2 es2 h2

/-- Witness for the amended C7: the invariant survives upload, a
successful terminal extraction write and a first-time begin_extraction
on a concrete state. -/
theorem claim7_witness :
    extractionInvariant
      ((extract_resume_data (upload_resume emptyServerState "r1" "cv.pdf")
        "r1").1) := by
  have hbase : extractionInvariant emptyServerState := by
    intro rid es h
    exact absurd h (by simp [emptyServerState])
  have h1 := (claim7_amended_invariant emptyServerState "r1" "cv.pdf"
    (ParseOutcome.value none) []).1 hbase
  exact (claim7_amended_invariant (upload_resume emptyServerState "r1" "cv.pdf")
    "r1" "cv.pdf" (ParseOutcome.value none) []).2.2.2 h1
    (fun es hes => by
      have : es = { status := JobState.pending,
                    extracted_data := none,
                    error_message := none } := by
        simpa [upload_resume, mapUpdate] using hes.symm
      rw [this]
      decide)

/-- C8 counterexample: for a key that already carries a ".pdf" suffix the
implementation does not strip it — with the rendered artifact
"report.pdf" present, the spec-side stripped base is "report" whose pdf
artifact exists, yet the endpoint answers NotFound because it looks up
"report.pdf.pdf" and "report.pdf.json". -/
theorem claim8_counterexample :
    stripKnownSuffix "report.pdf" = "report" ∧
    fsGet [("report.pdf", [("name", "x")])] ("report" ++ ".pdf")
      = some [("name", "x")] ∧
    (download_tailored_resume_pdf true [("report.pdf", [("name", "x")])]
      "report.pdf").2 = Except.error ApiError.NotFound := by
  refine ⟨by decide, by decide, rfl⟩

/-- C8 amended: the base name is the key with every occurrence of the
substring ".json" removed (a ".pdf" suffix is not stripped); the
operation then serves the existing pdf artifact for that base if
present, otherwise renders the json artifact synchronously, persists
and serves it, fails with RenderFailed when conversion fails, and fails
with NotFound when neither artifact exists. -/
theorem claim8_amended_fallback (renderOk : Bool) (fs : FS) (file_key : String) :
    (∀ d, fsGet fs (String.mk (removeJsonOccurrences file_key.data) ++ ".pdf") = some d →
      download_tailored_resume_pdf renderOk fs file_key
        = (fs, Except.ok (String.mk (removeJsonOccurrences file_key.data) ++ ".pdf"))) ∧
    (fsGet fs (String.mk (removeJsonOccurrences file_key.data) ++ ".pdf") = none →
      ∀ d, fsGet fs (String.mk (removeJsonOccurrences file_key.data) ++ ".json") = some d →
      renderOk = true →
      download_tailored_resume_pdf renderOk fs file_key
        = ((String.mk (removeJsonOccurrences file_key.data) ++ ".pdf", d) :: fs,
           Except.ok (String.mk (removeJsonOccurrences file_key.data) ++ ".pdf"))) ∧
    (fsGet fs (String.mk (removeJsonOccurrences file_key.data) ++ ".pdf") = none →
      ∀ d, fsGet fs (String.mk (removeJsonOccurrences file_key.data) ++ ".json") = some d →
      renderOk = false →
      download_tailored_resume_pdf renderOk fs file_key
        = (fs, Except.error ApiError.RenderFailed)) ∧
    (fsGet fs (String.mk (removeJsonOccurrences file_key.data) ++ ".pdf") = none →
      fsGet fs (String.mk (removeJsonOccurrences file_key.data) ++ ".json") = none →
      download_tailored_resume_pdf renderOk fs file_key
        = (fs, Except.error ApiError.NotFound)) := by
  refine ⟨?_, ?_, ?_, ?_⟩
  · intro d h
    simp [download_tailored_resume_pdf, h]
  · intro hp d hj hr
    simp [download_tailored_resume_pdf, hp, hj, hr]
  · intro hp d hj hr
    simp [download_tailored_resume_pdf, hp, hj, hr]
  · intro hp hj
    simp [download_tailored_resume_pdf, hp, hj]

/-- Witness for the amended C8: a json-suffixed key falls back to
on-demand conversion, persists the pdf and serves it. -/
theorem claim8_witness :
    download_tailored_resume_pdf true [("base.json", [("name", "x")])] "base.json"
      = ([("base.pdf", [("name", "x")]), ("base.json", [("name", "x")])],
         Except.ok "base.pdf") :=
  (claim8_amended_fallback true [("base.json", [("name", "x")])] "base.json").2.1
    (by decide) [("name", "x")] (by decide) rfl

end RT